import Mathlib

/-
Verification of the typed row-decoding engine (src/serde.rs).

The engine converts one database result row (a sequence of cells, each
holding null / integer / real / text / blob) into a statically-shaped
target value, driven by serde's visitor protocol.  We shallowly embed:

  * cells (rusqlite ValueRef) as an inductive ValueRef, with Real payloads
    kept as uninterpreted f64 bit patterns (they are only passed through);
  * the target type's serde shape as a closed inductive Shape, and the
    generic framework's derived visitors as Lean functions over shapes
    (the framework is an external collaborator; its standard visitor
    behaviour is modelled: each shape accepts its canonical event and
    rejects the rest with an invalid-type error);
  * decoded Rust values as an inductive DecValue;
  * the error enum of serde.rs as Error, with the Custom(String) payloads
    produced by the framework's error constructors modelled structurally
    (CustomMsg) rather than as formatted text;
  * rows as lists of cell reads, where a read can itself fail with a host
    error (rusqlite), and get_ref reports InvalidColumnIndex out of range;
  * the three deserializers (ValueRefDeserializer, IndexedRowDeserializer,
    NamedRowDeserializer), the seq/map accessors, and the two entry points
    from_row_via_index / from_row_via_name.

Enumerations are modelled with unit variants (the variant set is the list
of variant names), matching the only use the engine makes of them.
-/

set_option autoImplicit false

namespace VaultSerde

/-! ## UTF-8 validation (std::str::from_utf8) -/

/-- Model of std::str::Utf8Error: the length of the valid prefix. -/
structure Utf8Error where
  valid_up_to : Nat
deriving DecidableEq, Repr

/-- Is a byte a UTF-8 continuation byte (0x80..0xBF)? -/
def isCont (b : Nat) : Bool := 0x80 ≤ b && b < 0xC0

/-- Strict UTF-8 decoder over a byte list, tracking the byte offset for
Utf8Error.valid_up_to.  Rejects overlong encodings, surrogates and
codepoints above 0x10FFFF, exactly as Rust's std::str::from_utf8 does. -/
def utf8DecodeAux : List Nat → Nat → Except Utf8Error (List Char)
  | [], _ => .ok []
  | b0 :: rest, ofs =>
    if b0 < 0x80 then
      (utf8DecodeAux rest (ofs + 1)).map (Char.ofNat b0 :: ·)
    else if b0 < 0xC2 then
      .error ⟨ofs⟩
    else if b0 < 0xE0 then
      match rest with
      | b1 :: rest2 =>
        if isCont b1 then
          (utf8DecodeAux rest2 (ofs + 2)).map
            (Char.ofNat ((b0 - 0xC0) * 0x40 + (b1 - 0x80)) :: ·)
        else .error ⟨ofs⟩
      | [] => .error ⟨ofs⟩
    else if b0 < 0xF0 then
      match rest with
      | b1 :: b2 :: rest3 =>
        if ((if b0 = 0xE0 then 0xA0 ≤ b1 && b1 < 0xC0
             else if b0 = 0xED then 0x80 ≤ b1 && b1 < 0xA0
             else isCont b1) && isCont b2) then
          (utf8DecodeAux rest3 (ofs + 3)).map
            (Char.ofNat ((b0 - 0xE0) * 0x1000 + (b1 - 0x80) * 0x40 + (b2 - 0x80)) :: ·)
        else .error ⟨ofs⟩
      | _ => .error ⟨ofs⟩
    else if b0 < 0xF5 then
      match rest with
      | b1 :: b2 :: b3 :: rest4 =>
        if ((if b0 = 0xF0 then 0x90 ≤ b1 && b1 < 0xC0
             else if b0 = 0xF4 then 0x80 ≤ b1 && b1 < 0x90
             else isCont b1) && isCont b2 && isCont b3) then
          (utf8DecodeAux rest4 (ofs + 4)).map
            (Char.ofNat ((b0 - 0xF0) * 0x40000 + (b1 - 0x80) * 0x1000 +
                         (b2 - 0x80) * 0x40 + (b3 - 0x80)) :: ·)
        else .error ⟨ofs⟩
      | _ => .error ⟨ofs⟩
    else .error ⟨ofs⟩

/-- std::str::from_utf8, producing the decoded string on success. -/
def utf8DecodeStr (bytes : List Nat) : Except Utf8Error String :=
  (utf8DecodeAux bytes 0).map (fun cs => cs.asString)

/-! ## Data model -/

/-- rusqlite's ValueRef: one raw database cell.  The Real payload is an
uninterpreted f64 bit pattern (the engine only passes it through). -/
inductive ValueRef where
  | null
  | integer (v : Int)
  | real (bits : Nat)
  | text (bytes : List Nat)
  | blob (bytes : List Nat)
deriving DecidableEq, Repr

/-- The serde shape of the caller's target type: the closed classification
of what the derived Deserialize implementation requests. -/
inductive Shape where
  | boolS
  | i64S
  | f64S
  | strS
  | bytesS
  | unitS
  | optionS (inner : Shape)
  | newtypeS (name : String) (inner : Shape)
  | seqS (elem : Shape)
  | tupleS (elems : List Shape)
  | structS (name : String) (fields : List (String × Shape))
  | enumS (name : String) (variants : List String)
  | ignoredAnyS
deriving Repr

/-- A fully decoded target value, assembled bottom-up by the visitors. -/
inductive DecValue where
  | unitV
  | boolV (b : Bool)
  | intV (v : Int)
  | floatV (bits : Nat)
  | strV (s : String)
  | bytesV (b : List Nat)
  | noneV
  | someV (v : DecValue)
  | newtypeV (v : DecValue)
  | seqV (vs : List DecValue)
  | structV (fields : List (String × DecValue))
  | variantV (name : String)
  | ignoredV
deriving Repr

/-- The kind of a visitor event, used in invalid-type complaints. -/
inductive EventKind where
  | unitK
  | intK
  | floatK
  | strK
  | bytesK
  | boolK
deriving DecidableEq, Repr

/-- A visitor call made by deserialize_any: which visit_* method runs
and with what payload. -/
inductive Event where
  | unitE
  | intE (v : Int)
  | floatE (bits : Nat)
  | strE (s : String)
  | bytesE (b : List Nat)
  | boolE (b : Bool)
deriving DecidableEq, Repr

/-- The kind of an event. -/
def Event.kind : Event → EventKind
  | .unitE => .unitK
  | .intE _ => .intK
  | .floatE _ => .floatK
  | .strE _ => .strK
  | .bytesE _ => .bytesK
  | .boolE _ => .boolK

/-- Structural model of the Custom(String) messages the generic framework
produces through serde's error constructors. -/
inductive CustomMsg where
  | invalidType (got : EventKind)
  | unknownVariant (got : String) (expected : List String)
  | missingField (name : String)
  | duplicateField (name : String)
  | invalidLength (got : Nat)
deriving DecidableEq, Repr

/-- Host (rusqlite) errors surfaced by row/cell access. -/
inductive SqlAccessError where
  | invalidColumnIndex (i : Nat)
  | accessFailure (msg : String)
deriving DecidableEq, Repr

/-- The Error enum of serde.rs. -/
inductive Error where
  | expectedTupleLikeBaseType
  | expectedStructLikeBaseType
  | utf8 (e : Utf8Error)
  | rusqlite (e : SqlAccessError)
  | custom (m : CustomMsg)
deriving DecidableEq, Repr

/-- The host binding's error type as returned by the two entry points:
either an error of the SQL layer itself (never produced by the entry
points, present as the other channel of rusqlite::Error), or the
FromSqlError::Other carrier wrapping an internal decode error. -/
inductive RowError where
  | hostSql (e : SqlAccessError)
  | fromSqlOther (e : Error)
deriving Repr

/-! ## The generic framework's standard visitors

The visitor belongs to the target type's derived Deserialize
implementation (an external collaborator).  `visitEvent` models the
standard derived visitors' reaction to the scalar visit_* calls that
deserialize_any can make: each shape accepts its canonical event; every
other event is rejected with serde's invalid-type error. -/

def visitEvent (t : Shape) (e : Event) : Except Error DecValue :=
  match t, e with
  | .boolS, .boolE b => .ok (.boolV b)
  | .i64S, .intE v => .ok (.intV v)
  | .f64S, .floatE bits => .ok (.floatV bits)
  | .strS, .strE s => .ok (.strV s)
  | .bytesS, .bytesE b => .ok (.bytesV b)
  | .unitS, .unitE => .ok .unitV
  | .ignoredAnyS, _ => .ok .ignoredV
  | _, e => .error (.custom (.invalidType e.kind))

/-! ## Cell Adapter: ValueRefDeserializer -/

/-- ValueRefDeserializer::deserialize_any — produce the cell's natural
representation as one visitor event.  Text bytes are UTF-8 validated
first; invalid UTF-8 aborts with Error::Utf8 (via the From impl). -/
def deserializeAny (cell : ValueRef) (t : Shape) : Except Error DecValue :=
  match cell with
  | .null => visitEvent t .unitE
  | .integer v => visitEvent t (.intE v)
  | .real bits => visitEvent t (.floatE bits)
  | .text bytes =>
    match utf8DecodeStr bytes with
    | .ok s => visitEvent t (.strE s)
    | .error e => .error (.utf8 e)
  | .blob bytes => visitEvent t (.bytesE bytes)

/-- ValueRefDeserializer, dispatched on the target shape exactly as the
source implements / forwards the Deserializer methods:
bool, option, newtype_struct and enum are implemented; everything else
forwards to deserialize_any. -/
def deserializeValue (cell : ValueRef) : Shape → Except Error DecValue
  | .boolS =>
    match cell with
    | .integer 0 => .ok (.boolV false)
    | .integer _ => .ok (.boolV true)
    | _ => deserializeAny cell .boolS
  | .optionS inner =>
    match cell with
    | .null => .ok .noneV
    | _ => (deserializeValue cell inner).map .someV
  | .newtypeS _ inner => (deserializeValue cell inner).map .newtypeV
  | .enumS name variants =>
    match cell with
    | .text bytes =>
      match utf8DecodeStr bytes with
      | .ok s =>
        if s ∈ variants then .ok (.variantV s)
        else .error (.custom (.unknownVariant s variants))
      | .error e => .error (.utf8 e)
    | _ => deserializeAny cell (.enumS name variants)
  | t => deserializeAny cell t

/-! ## Rows and cell access -/

/-- A row: an ordered sequence of cell reads.  A read either yields the
cell or fails with a host access error (the channel rusqlite's Row can
report besides an out-of-range index). -/
structure Row where
  cells : List (Except String ValueRef)
deriving Repr

/-- rusqlite Row::get_ref: the cell at a zero-based index;
InvalidColumnIndex when the index is out of range. -/
def Row.get_ref (row : Row) (i : Nat) : Except SqlAccessError ValueRef :=
  match row.cells.get? i with
  | none => .error (.invalidColumnIndex i)
  | some (.error msg) => .error (.accessFailure msg)
  | some (.ok v) => .ok v

/-! ## Positional Traversal Driver -/

/-- The SeqAccess state of IndexedRowSeq: the row plus a cursor. -/
structure IndexedRowSeq where
  row : Row
  next_index : Nat
deriving Repr

/-- IndexedRowSeq::new. -/
def IndexedRowSeq.new (row : Row) : IndexedRowSeq := ⟨row, 0⟩

/-- IndexedRowSeq::next_element_seed: read the cell at the cursor; on
success advance the cursor and decode the cell; an InvalidColumnIndex
means the sequence is over (Ok(None)); any other access error is
propagated via the From impl into Error::Rusqlite. -/
def IndexedRowSeq.next_element_seed (s : IndexedRowSeq) (t : Shape) :
    Except Error (Option DecValue) × IndexedRowSeq :=
  match s.row.get_ref s.next_index with
  | .ok value =>
    ((deserializeValue value t).map some, { s with next_index := s.next_index + 1 })
  | .error (.invalidColumnIndex _) => (.ok none, s)
  | .error e => (.error (.rusqlite e), s)

theorem Row.get_ref_ok_lt {row : Row} {i : Nat} {v : ValueRef}
    (h : row.get_ref i = .ok v) : i < row.cells.length := by
  by_contra hle
  have hn : row.cells.get? i = none := List.get?_eq_none.mpr (Nat.le_of_not_lt hle)
  unfold Row.get_ref at h
  rw [hn] at h
  exact absurd h (by simp)

theorem IndexedRowSeq.next_element_seed_some {s s' : IndexedRowSeq} {t : Shape}
    {v : DecValue} (h : s.next_element_seed t = (.ok (some v), s')) :
    s'.row = s.row ∧ s'.next_index = s.next_index + 1 ∧
      s.next_index < s.row.cells.length := by
  unfold IndexedRowSeq.next_element_seed at h
  rcases hg : s.row.get_ref s.next_index with e | c
  · rw [hg] at h
    cases e <;> simp_all
  · rw [hg] at h
    have h2 : ({ row := s.row, next_index := s.next_index + 1 } : IndexedRowSeq) = s' :=
      congrArg Prod.snd h
    refine ⟨?_, ?_, Row.get_ref_ok_lt hg⟩
    · rw [← h2]
    · rw [← h2]

/-- The framework's variable-length sequence visitor (for Vec-like
targets): keep asking next_element_seed until it signals the end. -/
def indexedSeqLoop (s : IndexedRowSeq) (t : Shape) : Except Error (List DecValue) :=
  match h : s.next_element_seed t with
  | (.ok none, _) => .ok []
  | (.ok (some v), s') => (indexedSeqLoop s' t).map (v :: ·)
  | (.error e, _) => .error e
termination_by s.row.cells.length - s.next_index
decreasing_by
  obtain ⟨hr, hi, hlt⟩ := IndexedRowSeq.next_element_seed_some h
  rw [hr, hi]
  omega

/-- The framework's fixed-arity tuple visitor: ask for exactly one
element per component shape; running out early is serde's invalid-length
error (the framework's own arity check, not the driver's). -/
def indexedTupleLoop (s : IndexedRowSeq) : List Shape → Except Error (List DecValue)
  | [] => .ok []
  | t :: rest =>
    match s.next_element_seed t with
    | (.ok none, _) => .error (.custom (.invalidLength s.next_index))
    | (.ok (some v), s') => (indexedTupleLoop s' rest).map (v :: ·)
    | (.error e, _) => .error e

/-- The MapAccess state of IndexedRowMap: row, the target's static field
list, and the index of the next key. -/
structure IndexedRowMap where
  row : Row
  fields : List String
  next_index : Nat
deriving Repr

/-- IndexedRowMap::new. -/
def IndexedRowMap.new (row : Row) (fields : List String) : IndexedRowMap :=
  ⟨row, fields, 0⟩

/-- IndexedRowMap::next_key_seed: hand out the next field name as the key
(through a borrowed-str deserializer; the derived field-identifier seed
returns the matched name and never fails) and advance; once the field
list is exhausted, signal that there are no more keys. -/
def IndexedRowMap.next_key_seed (m : IndexedRowMap) : Option String × IndexedRowMap :=
  match m.fields.get? m.next_index with
  | some key => (some key, { m with next_index := m.next_index + 1 })
  | none => (none, m)

/-- IndexedRowMap::next_value_seed: read the cell at next_index - 1 (the
position of the most recently produced key) and decode it; an access
error propagates via the From impl into Error::Rusqlite. -/
def IndexedRowMap.next_value_seed (m : IndexedRowMap) (t : Shape) : Except Error DecValue :=
  match m.row.get_ref (m.next_index - 1) with
  | .ok value => deserializeValue value t
  | .error e => .error (.rusqlite e)

theorem indexed_next_key_seed_some {m m' : IndexedRowMap} {k : String}
    (h : m.next_key_seed = (some k, m')) :
    m'.row = m.row ∧ m'.fields = m.fields ∧ m'.next_index = m.next_index + 1 ∧
      m.next_index < m.fields.length ∧ m.fields.get? m.next_index = some k := by
  unfold IndexedRowMap.next_key_seed at h
  rcases hg : m.fields.get? m.next_index with _ | key
  · rw [hg] at h; simp_all
  · rw [hg] at h
    have h1 : k = key := by
      have hf := congrArg Prod.fst h
      simp at hf
      exact hf.symm
    have h2 : m' = { m with next_index := m.next_index + 1 } :=
      (congrArg Prod.snd h).symm
    have hlt : m.next_index < m.fields.length := by
      by_contra hle
      rw [List.get?_eq_none.mpr (Nat.le_of_not_lt hle)] at hg
      exact absurd hg (by simp)
    subst h1
    exact ⟨by rw [h2], by rw [h2], by rw [h2], hlt, rfl⟩

/-- The derived field-identifier matcher: the index of the first target
field whose name equals the key. -/
def findFieldIdx (k : String) : List (String × Shape) → Option Nat
  | [] => none
  | (n, _) :: rest => if k = n then some 0 else (findFieldIdx k rest).map (· + 1)

/-- End of the derived struct visitor: every field slot must be filled,
in declaration order; a still-empty slot is serde's missing-field error. -/
def buildFields : List (String × Shape) → List (Option DecValue) →
    Except Error (List (String × DecValue))
  | [], _ => .ok []
  | (n, _) :: _, [] => .error (.custom (.missingField n))
  | (n, _) :: rest, none :: _ => .error (.custom (.missingField n))
  | (n, _) :: rest, some v :: srest => (buildFields rest srest).map ((n, v) :: ·)

/-- The shape of the target field at position j (j always in range when
produced by findFieldIdx). -/
def shapeAt (tf : List (String × Shape)) (j : Nat) : Shape :=
  (tf.getD j ("", .unitS)).2

/-- The derived struct visitor's visit_map loop, driven by IndexedRowMap:
fetch a key, match it against the target's field names, fetch the value
with that field's shape into the field's slot; an unmatched key (never
produced by this map) is skipped via IgnoredAny; a doubly-filled slot is
serde's duplicate-field error. -/
def indexedStructVisit (m : IndexedRowMap) (tf : List (String × Shape))
    (slots : List (Option DecValue)) : Except Error DecValue :=
  match h : m.next_key_seed with
  | (none, _) => (buildFields tf slots).map DecValue.structV
  | (some k, m') =>
    match findFieldIdx k tf with
    | some j =>
      match slots.getD j none with
      | some _ => .error (.custom (.duplicateField k))
      | none =>
        match m'.next_value_seed (shapeAt tf j) with
        | .ok v => indexedStructVisit m' tf (slots.set j (some v))
        | .error e => .error e
    | none =>
      match m'.next_value_seed .ignoredAnyS with
      | .ok _ => indexedStructVisit m' tf slots
      | .error e => .error e
termination_by m.fields.length - m.next_index
decreasing_by
  all_goals
    obtain ⟨_, hf, hi, hlt, _⟩ := indexed_next_key_seed_some h
    rw [hf, hi]
    omega

/-- IndexedRowDeserializer, dispatched on the target shape exactly as the
source implements / forwards: newtype_struct re-enters with the inner
type; seq, tuple and tuple_struct walk the row positionally; struct walks
the row through IndexedRowMap; every other request forwards to
deserialize_any, which rejects with ExpectedTupleLikeBaseType. -/
def deserializeIndexed (row : Row) : Shape → Except Error DecValue
  | .newtypeS _ inner => (deserializeIndexed row inner).map .newtypeV
  | .seqS elem => (indexedSeqLoop (IndexedRowSeq.new row) elem).map .seqV
  | .tupleS elems => (indexedTupleLoop (IndexedRowSeq.new row) elems).map .seqV
  | .structS _ tf =>
    indexedStructVisit (IndexedRowMap.new row (tf.map Prod.fst)) tf
      (List.replicate tf.length none)
  | _ => .error .expectedTupleLikeBaseType

/-- from_row_via_index: run the positional driver and wrap any internal
decode error into the host binding's FromSqlError::Other carrier. -/
def from_row_via_index (row : Row) (t : Shape) : Except RowError DecValue :=
  (deserializeIndexed row t).mapError (fun err => .fromSqlOther err)

/-! ## Named Traversal Driver -/

/-- The MapAccess state of NamedRowMap (textually identical machinery to
IndexedRowMap in the source). -/
structure NamedRowMap where
  row : Row
  fields : List String
  next_index : Nat
deriving Repr

/-- NamedRowMap::new. -/
def NamedRowMap.new (row : Row) (fields : List String) : NamedRowMap :=
  ⟨row, fields, 0⟩

/-- NamedRowMap::next_key_seed. -/
def NamedRowMap.next_key_seed (m : NamedRowMap) : Option String × NamedRowMap :=
  match m.fields.get? m.next_index with
  | some key => (some key, { m with next_index := m.next_index + 1 })
  | none => (none, m)

/-- NamedRowMap::next_value_seed. -/
def NamedRowMap.next_value_seed (m : NamedRowMap) (t : Shape) : Except Error DecValue :=
  match m.row.get_ref (m.next_index - 1) with
  | .ok value => deserializeValue value t
  | .error e => .error (.rusqlite e)

theorem named_next_key_seed_some {m m' : NamedRowMap} {k : String}
    (h : m.next_key_seed = (some k, m')) :
    m'.row = m.row ∧ m'.fields = m.fields ∧ m'.next_index = m.next_index + 1 ∧
      m.next_index < m.fields.length ∧ m.fields.get? m.next_index = some k := by
  unfold NamedRowMap.next_key_seed at h
  rcases hg : m.fields.get? m.next_index with _ | key
  · rw [hg] at h; simp_all
  · rw [hg] at h
    have h1 : k = key := by
      have hf := congrArg Prod.fst h
      simp at hf
      exact hf.symm
    have h2 : m' = { m with next_index := m.next_index + 1 } :=
      (congrArg Prod.snd h).symm
    have hlt : m.next_index < m.fields.length := by
      by_contra hle
      rw [List.get?_eq_none.mpr (Nat.le_of_not_lt hle)] at hg
      exact absurd hg (by simp)
    subst h1
    exact ⟨by rw [h2], by rw [h2], by rw [h2], hlt, rfl⟩

/-- The derived struct visitor's visit_map loop, driven by NamedRowMap. -/
def namedStructVisit (m : NamedRowMap) (tf : List (String × Shape))
    (slots : List (Option DecValue)) : Except Error DecValue :=
  match h : m.next_key_seed with
  | (none, _) => (buildFields tf slots).map DecValue.structV
  | (some k, m') =>
    match findFieldIdx k tf with
    | some j =>
      match slots.getD j none with
      | some _ => .error (.custom (.duplicateField k))
      | none =>
        match m'.next_value_seed (shapeAt tf j) with
        | .ok v => namedStructVisit m' tf (slots.set j (some v))
        | .error e => .error e
    | none =>
      match m'.next_value_seed .ignoredAnyS with
      | .ok _ => namedStructVisit m' tf slots
      | .error e => .error e
termination_by m.fields.length - m.next_index
decreasing_by
  all_goals
    obtain ⟨_, hf, hi, hlt, _⟩ := named_next_key_seed_some h
    rw [hf, hi]
    omega

/-- NamedRowDeserializer: only struct is implemented (walking the row
through NamedRowMap); every other request — including newtype_struct,
which its forward list sends to deserialize_any — is rejected with
ExpectedStructLikeBaseType. -/
def deserializeNamed (row : Row) : Shape → Except Error DecValue
  | .structS _ tf =>
    namedStructVisit (NamedRowMap.new row (tf.map Prod.fst)) tf
      (List.replicate tf.length none)
  | _ => .error .expectedStructLikeBaseType

/-- from_row_via_name: run the named driver and wrap any internal decode
error into the host binding's FromSqlError::Other carrier. -/
def from_row_via_name (row : Row) (t : Shape) : Except RowError DecValue :=
  (deserializeNamed row t).mapError (fun err => .fromSqlOther err)

/-! ## Statement-side definitions -/

/-- Positionally aligned decoding, the stated form of the
field-list-as-position property: the cell at row position i decoded with
the i-th shape, first failure wins. -/
def decodeCellsFrom (row : Row) : Nat → List Shape → Except Error (List DecValue)
  | _, [] => .ok []
  | i, t :: rest =>
    match row.get_ref i with
    | .error e => .error (.rusqlite e)
    | .ok c =>
      match deserializeValue c t with
      | .error e => .error e
      | .ok v => (decodeCellsFrom row (i + 1) rest).map (v :: ·)

/-- The field values of a decoded struct, stripped of their name labels. -/
def structVals : DecValue → List DecValue
  | .structV l => l.map Prod.snd
  | _ => []

/-- Does a decode result carry serde's unknown-variant (variant-mismatch)
error? -/
def isUnknownVariantErr : Except Error DecValue → Bool
  | .error (.custom (.unknownVariant _ _)) => true
  | _ => false

/-- The visitor event kind a cell produces through deserialize_any. -/
def cellEventKind : ValueRef → EventKind
  | .null => .unitK
  | .integer _ => .intK
  | .real _ => .floatK
  | .text _ => .strK
  | .blob _ => .bytesK

/-! ## Claims -/

/-- C4: for every cell decoded against a boolean target shape, an
Integer(0) cell yields false and an Integer(v) cell with v ≠ 0 yields
true; both are successes, never errors. -/
theorem claim_c4_bool_coercion :
    (deserializeValue (.integer 0) .boolS = .ok (.boolV false)) ∧
    (∀ v : Int, v ≠ 0 → deserializeValue (.integer v) .boolS = .ok (.boolV true)) := by
  refine ⟨rfl, ?_⟩
  intro v hv
  match v, hv with
  | .ofNat 0, hv => exact absurd rfl hv
  | .ofNat (n + 1), _ => rfl
  | .negSucc n, _ => rfl

theorem claim_c4_witness :
    (2 : Int) ≠ 0 ∧ deserializeValue (.integer 2) .boolS = .ok (.boolV true) :=
  ⟨by decide, claim_c4_bool_coercion.2 2 (by decide)⟩

/-- C5: a Null cell decoded against an option shape yields the absent
value; every non-Null cell yields the present value wrapping the inner
decode of that same cell (no other cell is involved). -/
theorem claim_c5_option :
    (∀ t, deserializeValue .null (.optionS t) = .ok .noneV) ∧
    (∀ cell t, cell ≠ .null →
      deserializeValue cell (.optionS t) = (deserializeValue cell t).map .someV) := by
  refine ⟨fun t => rfl, ?_⟩
  intro cell t hc
  cases cell
  · exact absurd rfl hc
  all_goals rfl

theorem claim_c5_witness :
    (ValueRef.integer 7 ≠ .null) ∧
      deserializeValue (.integer 7) (.optionS .i64S) =
        (deserializeValue (.integer 7) .i64S).map .someV :=
  ⟨by decide, claim_c5_option.2 _ _ (by decide)⟩

/-- C7: in positional sequence decoding, an out-of-range cursor makes
next_element_seed signal the end of the sequence (Ok(None), not an
error), while any other cell-access failure is propagated as a decode
error. -/
theorem claim_c7_seq_termination :
    ∀ (s : IndexedRowSeq) (t : Shape),
      (∀ j, s.row.get_ref s.next_index = .error (.invalidColumnIndex j) →
        s.next_element_seed t = (.ok none, s)) ∧
      (∀ msg, s.row.get_ref s.next_index = .error (.accessFailure msg) →
        s.next_element_seed t = (.error (.rusqlite (.accessFailure msg)), s)) := by
  intro s t
  constructor
  · intro j h
    unfold IndexedRowSeq.next_element_seed
    rw [h]
  · intro msg h
    unfold IndexedRowSeq.next_element_seed
    rw [h]

theorem claim_c7_witness :
    (Row.get_ref ⟨[]⟩ 0 = .error (.invalidColumnIndex 0) ∧
      IndexedRowSeq.next_element_seed ⟨⟨[]⟩, 0⟩ .i64S = (.ok none, ⟨⟨[]⟩, 0⟩)) ∧
    (Row.get_ref ⟨[.error "io"]⟩ 0 = .error (.accessFailure "io") ∧
      IndexedRowSeq.next_element_seed ⟨⟨[.error "io"]⟩, 0⟩ .i64S =
        (.error (.rusqlite (.accessFailure "io")), ⟨⟨[.error "io"]⟩, 0⟩)) :=
  ⟨⟨rfl, (claim_c7_seq_termination _ _).1 0 rfl⟩,
   ⟨rfl, (claim_c7_seq_termination _ _).2 "io" rfl⟩⟩

/-- C8: a Text cell whose bytes are not well-formed UTF-8 fails against
the string target with a decode error carrying the underlying UTF-8
validation error; no lossy replacement happens. -/
theorem claim_c8_utf8_error :
    ∀ (bytes : List Nat) (e : Utf8Error), utf8DecodeStr bytes = .error e →
      deserializeValue (.text bytes) .strS = .error (.utf8 e) := by
  intro bytes e h
  show (match utf8DecodeStr bytes with
        | .ok s => visitEvent .strS (.strE s)
        | .error e => .error (.utf8 e)) = _
  rw [h]

theorem claim_c8_witness :
    utf8DecodeStr [0xFF] = .error ⟨0⟩ ∧
      deserializeValue (.text [0xFF]) .strS = .error (.utf8 ⟨0⟩) :=
  ⟨rfl, claim_c8_utf8_error _ _ rfl⟩

/-- C9: each entry point either returns a fully decoded value or an error
wrapped into the host binding's FromSqlError::Other carrier; no other
error channel of the host error type is ever used. -/
theorem claim_c9_error_channel :
    ∀ (row : Row) (t : Shape),
      ((∃ v, from_row_via_index row t = .ok v) ∨
        (∃ e, from_row_via_index row t = .error (.fromSqlOther e))) ∧
      ((∃ v, from_row_via_name row t = .ok v) ∨
        (∃ e, from_row_via_name row t = .error (.fromSqlOther e))) := by
  intro row t
  constructor
  · rcases hd : deserializeIndexed row t with e | v
    · exact .inr ⟨e, by unfold from_row_via_index; rw [hd]; rfl⟩
    · exact .inl ⟨v, by unfold from_row_via_index; rw [hd]; rfl⟩
  · rcases hd : deserializeNamed row t with e | v
    · exact .inr ⟨e, by unfold from_row_via_name; rw [hd]; rfl⟩
    · exact .inl ⟨v, by unfold from_row_via_name; rw [hd]; rfl⟩

/-- C10 helper samples. -/
def rowW10 : Row := ⟨[.ok (.integer 3)]⟩

/-- C10: in both map traversals, after a successful key request the
value request's index next_index - 1 cannot underflow (next_index ≥ 1)
and addresses exactly the position of the key just produced. -/
theorem claim_c10_no_underflow :
    (∀ (m m' : IndexedRowMap) (k : String), m.next_key_seed = (some k, m') →
       1 ≤ m'.next_index ∧ m'.next_index - 1 = m.next_index ∧
         m.fields.get? m.next_index = some k ∧
         ∀ t, m'.next_value_seed t =
           (match m'.row.get_ref m.next_index with
            | .ok c => deserializeValue c t
            | .error e => .error (.rusqlite e))) ∧
    (∀ (m m' : NamedRowMap) (k : String), m.next_key_seed = (some k, m') →
       1 ≤ m'.next_index ∧ m'.next_index - 1 = m.next_index ∧
         m.fields.get? m.next_index = some k ∧
         ∀ t, m'.next_value_seed t =
           (match m'.row.get_ref m.next_index with
            | .ok c => deserializeValue c t
            | .error e => .error (.rusqlite e))) := by
  constructor
  · intro m m' k h
    obtain ⟨hr, hf, hi, hlt, hk⟩ := indexed_next_key_seed_some h
    refine ⟨by omega, by omega, hk, ?_⟩
    intro t
    unfold IndexedRowMap.next_value_seed
    rw [hi, Nat.add_sub_cancel]
  · intro m m' k h
    obtain ⟨hr, hf, hi, hlt, hk⟩ := named_next_key_seed_some h
    refine ⟨by omega, by omega, hk, ?_⟩
    intro t
    unfold NamedRowMap.next_value_seed
    rw [hi, Nat.add_sub_cancel]

theorem claim_c10_witness :
    ((⟨rowW10, ["a"], 0⟩ : IndexedRowMap).next_key_seed =
       (some "a", (⟨rowW10, ["a"], 1⟩ : IndexedRowMap)) ∧
      1 ≤ (⟨rowW10, ["a"], 1⟩ : IndexedRowMap).next_index ∧
      (⟨rowW10, ["a"], 1⟩ : IndexedRowMap).next_index - 1 =
        (⟨rowW10, ["a"], 0⟩ : IndexedRowMap).next_index ∧
      (⟨rowW10, ["a"], 0⟩ : IndexedRowMap).fields.get?
        (⟨rowW10, ["a"], 0⟩ : IndexedRowMap).next_index = some "a" ∧
      ∀ t, (⟨rowW10, ["a"], 1⟩ : IndexedRowMap).next_value_seed t =
        (match (⟨rowW10, ["a"], 1⟩ : IndexedRowMap).row.get_ref
            (⟨rowW10, ["a"], 0⟩ : IndexedRowMap).next_index with
         | .ok c => deserializeValue c t
         | .error e => .error (.rusqlite e))) ∧
    ((⟨rowW10, ["a"], 0⟩ : NamedRowMap).next_key_seed =
       (some "a", (⟨rowW10, ["a"], 1⟩ : NamedRowMap)) ∧
      1 ≤ (⟨rowW10, ["a"], 1⟩ : NamedRowMap).next_index ∧
      (⟨rowW10, ["a"], 1⟩ : NamedRowMap).next_index - 1 =
        (⟨rowW10, ["a"], 0⟩ : NamedRowMap).next_index ∧
      (⟨rowW10, ["a"], 0⟩ : NamedRowMap).fields.get?
        (⟨rowW10, ["a"], 0⟩ : NamedRowMap).next_index = some "a" ∧
      ∀ t, (⟨rowW10, ["a"], 1⟩ : NamedRowMap).next_value_seed t =
        (match (⟨rowW10, ["a"], 1⟩ : NamedRowMap).row.get_ref
            (⟨rowW10, ["a"], 0⟩ : NamedRowMap).next_index with
         | .ok c => deserializeValue c t
         | .error e => .error (.rusqlite e))) :=
  ⟨⟨rfl, claim_c10_no_underflow.1 _ _ "a" rfl⟩,
   ⟨rfl, claim_c10_no_underflow.2 _ _ "a" rfl⟩⟩

/-- C2 counterexample: in named mode a newtype-wrapper request around a
whole row does fail — NamedRowDeserializer's forward list sends
newtype_struct to deserialize_any, which rejects with
ExpectedStructLikeBaseType. -/
theorem claim_c2_counterexample :
    from_row_via_name ⟨[.ok (.integer 1)]⟩ (.newtypeS "Wrapper" (.structS "S" [("a", .i64S)])) =
      .error (.fromSqlOther .expectedStructLikeBaseType) := rfl

/-- C2 amended: in named mode, requesting a newtype-wrapper target shape
around a whole row is rejected with the expected-struct-like-base-type
error (it does not re-enter the named driver). -/
theorem claim_c2_newtype_rejected :
    ∀ (row : Row) (name : String) (inner : Shape),
      from_row_via_name row (.newtypeS name inner) =
        .error (.fromSqlOther .expectedStructLikeBaseType) := by
  intro row name inner
  rfl

/-- C6 counterexample: a non-Text cell decoded against an enumeration
target fails with serde's invalid-type error, not with a
variant-mismatch (unknown-variant) error. -/
theorem claim_c6_counterexample :
    deserializeValue (.integer 5) (.enumS "E" ["Active", "Inactive"]) =
        .error (.custom (.invalidType .intK)) ∧
      isUnknownVariantErr
        (deserializeValue (.integer 5) (.enumS "E" ["Active", "Inactive"])) = false :=
  ⟨rfl, rfl⟩

/-- C6 amended: against an enumeration target, a Text cell with valid
UTF-8 content case-sensitively equal to a variant name succeeds with that
variant; a Text cell with valid UTF-8 content matching no variant fails
with the unknown-variant (variant-mismatch) error; a Text cell with
invalid UTF-8 fails with the UTF-8 error; and every non-Text cell fails
with serde's invalid-type error. -/
theorem claim_c6_enum_matching :
    (∀ (bytes : List Nat) (s name : String) (variants : List String),
       utf8DecodeStr bytes = .ok s → s ∈ variants →
       deserializeValue (.text bytes) (.enumS name variants) = .ok (.variantV s)) ∧
    (∀ (bytes : List Nat) (s name : String) (variants : List String),
       utf8DecodeStr bytes = .ok s → s ∉ variants →
       deserializeValue (.text bytes) (.enumS name variants) =
         .error (.custom (.unknownVariant s variants))) ∧
    (∀ (bytes : List Nat) (e : Utf8Error) (name : String) (variants : List String),
       utf8DecodeStr bytes = .error e →
       deserializeValue (.text bytes) (.enumS name variants) = .error (.utf8 e)) ∧
    (∀ (cell : ValueRef) (name : String) (variants : List String),
       (∀ bytes, cell ≠ .text bytes) →
       deserializeValue cell (.enumS name variants) =
         .error (.custom (.invalidType (cellEventKind cell)))) := by
  refine ⟨?_, ?_, ?_, ?_⟩
  · intro bytes s name variants h hmem
    show (match utf8DecodeStr bytes with
          | Except.ok s =>
            if s ∈ variants then Except.ok (DecValue.variantV s)
            else Except.error (Error.custom (CustomMsg.unknownVariant s variants))
          | Except.error e => Except.error (Error.utf8 e)) = _
    rw [h]
    simp [hmem]
  · intro bytes s name variants h hmem
    show (match utf8DecodeStr bytes with
          | Except.ok s =>
            if s ∈ variants then Except.ok (DecValue.variantV s)
            else Except.error (Error.custom (CustomMsg.unknownVariant s variants))
          | Except.error e => Except.error (Error.utf8 e)) = _
    rw [h]
    simp [hmem]
  · intro bytes e name variants h
    show (match utf8DecodeStr bytes with
          | Except.ok s =>
            if s ∈ variants then Except.ok (DecValue.variantV s)
            else Except.error (Error.custom (CustomMsg.unknownVariant s variants))
          | Except.error e => Except.error (Error.utf8 e)) = _
    rw [h]
  · intro cell name variants hc
    cases cell with
    | text bytes => exact absurd rfl (hc bytes)
    | null => rfl
    | integer v => rfl
    | real bits => rfl
    | blob b => rfl

theorem claim_c6_witness :
    (utf8DecodeStr [65, 99, 116, 105, 118, 101] = .ok "Active" ∧
      "Active" ∈ ["Active", "Inactive"] ∧
      deserializeValue (.text [65, 99, 116, 105, 118, 101])
        (.enumS "E" ["Active", "Inactive"]) = .ok (.variantV "Active")) ∧
    (utf8DecodeStr [97, 99, 116, 105, 118, 101] = .ok "active" ∧
      "active" ∉ ["Active", "Inactive"] ∧
      deserializeValue (.text [97, 99, 116, 105, 118, 101])
        (.enumS "E" ["Active", "Inactive"]) =
        .error (.custom (.unknownVariant "active" ["Active", "Inactive"]))) ∧
    (utf8DecodeStr [0xC0] = .error ⟨0⟩ ∧
      deserializeValue (.text [0xC0]) (.enumS "E" ["Active", "Inactive"]) =
        .error (.utf8 ⟨0⟩)) ∧
    ((∀ bytes, ValueRef.null ≠ .text bytes) ∧
      deserializeValue .null (.enumS "E" ["Active", "Inactive"]) =
        .error (.custom (.invalidType (cellEventKind .null)))) :=
  ⟨⟨rfl, by decide, claim_c6_enum_matching.1 _ _ _ _ rfl (by decide)⟩,
   ⟨rfl, by decide, claim_c6_enum_matching.2.1 _ _ _ _ rfl (by decide)⟩,
   ⟨rfl, claim_c6_enum_matching.2.2.1 _ _ _ _ rfl⟩,
   ⟨fun bytes h => ValueRef.noConfusion h,
    claim_c6_enum_matching.2.2.2 _ _ _ (fun bytes h => ValueRef.noConfusion h)⟩⟩

/-! ## Step equations for the struct-visitor loops -/

theorem get_some_lt {α : Type} {l : List α} {i : Nat} {a : α}
    (h : l.get? i = some a) : i < l.length := by
  by_contra hle
  rw [List.get?_eq_none.mpr (Nat.le_of_not_lt hle)] at h
  exact absurd h (by simp)

theorem namedStructVisit_key_none {m m₂ : NamedRowMap} {tf : List (String × Shape)}
    {slots : List (Option DecValue)} (h : m.next_key_seed = (none, m₂)) :
    namedStructVisit m tf slots = (buildFields tf slots).map DecValue.structV := by
  conv_lhs => rw [namedStructVisit.eq_def]
  split
  · rfl
  · rename_i k2 m2 heq
    rw [h] at heq
    simp at heq

theorem namedStructVisit_key_hit_ok {m m' : NamedRowMap} {k : String}
    {tf : List (String × Shape)} {slots : List (Option DecValue)} {j : Nat} {v : DecValue}
    (h : m.next_key_seed = (some k, m')) (hf : findFieldIdx k tf = some j)
    (hs : slots.getD j none = none) (hv : m'.next_value_seed (shapeAt tf j) = .ok v) :
    namedStructVisit m tf slots = namedStructVisit m' tf (slots.set j (some v)) := by
  conv_lhs => rw [namedStructVisit.eq_def]
  split
  · rename_i x heq
    rw [h] at heq
    simp at heq
  · rename_i k2 m2 heq
    rw [h] at heq
    have h1 : k = k2 := by have := congrArg Prod.fst heq; simpa using this
    have h2 : m' = m2 := by have := congrArg Prod.snd heq; simpa using this
    subst h1
    subst h2
    simp only [hf, hs, hv]

theorem namedStructVisit_key_hit_err {m m' : NamedRowMap} {k : String}
    {tf : List (String × Shape)} {slots : List (Option DecValue)} {j : Nat} {e : Error}
    (h : m.next_key_seed = (some k, m')) (hf : findFieldIdx k tf = some j)
    (hs : slots.getD j none = none) (hv : m'.next_value_seed (shapeAt tf j) = .error e) :
    namedStructVisit m tf slots = .error e := by
  conv_lhs => rw [namedStructVisit.eq_def]
  split
  · rename_i x heq
    rw [h] at heq
    simp at heq
  · rename_i k2 m2 heq
    rw [h] at heq
    have h1 : k = k2 := by have := congrArg Prod.fst heq; simpa using this
    have h2 : m' = m2 := by have := congrArg Prod.snd heq; simpa using this
    subst h1
    subst h2
    simp only [hf, hs, hv]

theorem namedStructVisit_key_dup {m m' : NamedRowMap} {k : String}
    {tf : List (String × Shape)} {slots : List (Option DecValue)} {j : Nat} {v0 : DecValue}
    (h : m.next_key_seed = (some k, m')) (hf : findFieldIdx k tf = some j)
    (hs : slots.getD j none = some v0) :
    namedStructVisit m tf slots = .error (.custom (.duplicateField k)) := by
  conv_lhs => rw [namedStructVisit.eq_def]
  split
  · rename_i x heq
    rw [h] at heq
    simp at heq
  · rename_i k2 m2 heq
    rw [h] at heq
    have h1 : k = k2 := by have := congrArg Prod.fst heq; simpa using this
    have h2 : m' = m2 := by have := congrArg Prod.snd heq; simpa using this
    subst h1
    subst h2
    simp only [hf, hs]

theorem namedStructVisit_key_miss_ok {m m' : NamedRowMap} {k : String}
    {tf : List (String × Shape)} {slots : List (Option DecValue)} {v : DecValue}
    (h : m.next_key_seed = (some k, m')) (hf : findFieldIdx k tf = none)
    (hv : m'.next_value_seed .ignoredAnyS = .ok v) :
    namedStructVisit m tf slots = namedStructVisit m' tf slots := by
  conv_lhs => rw [namedStructVisit.eq_def]
  split
  · rename_i x heq
    rw [h] at heq
    simp at heq
  · rename_i k2 m2 heq
    rw [h] at heq
    have h1 : k = k2 := by have := congrArg Prod.fst heq; simpa using this
    have h2 : m' = m2 := by have := congrArg Prod.snd heq; simpa using this
    subst h1
    subst h2
    simp only [hf, hv]

theorem namedStructVisit_key_miss_err {m m' : NamedRowMap} {k : String}
    {tf : List (String × Shape)} {slots : List (Option DecValue)} {e : Error}
    (h : m.next_key_seed = (some k, m')) (hf : findFieldIdx k tf = none)
    (hv : m'.next_value_seed .ignoredAnyS = .error e) :
    namedStructVisit m tf slots = .error e := by
  conv_lhs => rw [namedStructVisit.eq_def]
  split
  · rename_i x heq
    rw [h] at heq
    simp at heq
  · rename_i k2 m2 heq
    rw [h] at heq
    have h1 : k = k2 := by have := congrArg Prod.fst heq; simpa using this
    have h2 : m' = m2 := by have := congrArg Prod.snd heq; simpa using this
    subst h1
    subst h2
    simp only [hf, hv]

theorem indexedStructVisit_key_none {m m₂ : IndexedRowMap} {tf : List (String × Shape)}
    {slots : List (Option DecValue)} (h : m.next_key_seed = (none, m₂)) :
    indexedStructVisit m tf slots = (buildFields tf slots).map DecValue.structV := by
  conv_lhs => rw [indexedStructVisit.eq_def]
  split
  · rfl
  · rename_i k2 m2 heq
    rw [h] at heq
    simp at heq

theorem indexedStructVisit_key_hit_ok {m m' : IndexedRowMap} {k : String}
    {tf : List (String × Shape)} {slots : List (Option DecValue)} {j : Nat} {v : DecValue}
    (h : m.next_key_seed = (some k, m')) (hf : findFieldIdx k tf = some j)
    (hs : slots.getD j none = none) (hv : m'.next_value_seed (shapeAt tf j) = .ok v) :
    indexedStructVisit m tf slots = indexedStructVisit m' tf (slots.set j (some v)) := by
  conv_lhs => rw [indexedStructVisit.eq_def]
  split
  · rename_i x heq
    rw [h] at heq
    simp at heq
  · rename_i k2 m2 heq
    rw [h] at heq
    have h1 : k = k2 := by have := congrArg Prod.fst heq; simpa using this
    have h2 : m' = m2 := by have := congrArg Prod.snd heq; simpa using this
    subst h1
    subst h2
    simp only [hf, hs, hv]

theorem indexedStructVisit_key_hit_err {m m' : IndexedRowMap} {k : String}
    {tf : List (String × Shape)} {slots : List (Option DecValue)} {j : Nat} {e : Error}
    (h : m.next_key_seed = (some k, m')) (hf : findFieldIdx k tf = some j)
    (hs : slots.getD j none = none) (hv : m'.next_value_seed (shapeAt tf j) = .error e) :
    indexedStructVisit m tf slots = .error e := by
  conv_lhs => rw [indexedStructVisit.eq_def]
  split
  · rename_i x heq
    rw [h] at heq
    simp at heq
  · rename_i k2 m2 heq
    rw [h] at heq
    have h1 : k = k2 := by have := congrArg Prod.fst heq; simpa using this
    have h2 : m' = m2 := by have := congrArg Prod.snd heq; simpa using this
    subst h1
    subst h2
    simp only [hf, hs, hv]

theorem indexedStructVisit_key_dup {m m' : IndexedRowMap} {k : String}
    {tf : List (String × Shape)} {slots : List (Option DecValue)} {j : Nat} {v0 : DecValue}
    (h : m.next_key_seed = (some k, m')) (hf : findFieldIdx k tf = some j)
    (hs : slots.getD j none = some v0) :
    indexedStructVisit m tf slots = .error (.custom (.duplicateField k)) := by
  conv_lhs => rw [indexedStructVisit.eq_def]
  split
  · rename_i x heq
    rw [h] at heq
    simp at heq
  · rename_i k2 m2 heq
    rw [h] at heq
    have h1 : k = k2 := by have := congrArg Prod.fst heq; simpa using this
    have h2 : m' = m2 := by have := congrArg Prod.snd heq; simpa using this
    subst h1
    subst h2
    simp only [hf, hs]

theorem indexedStructVisit_key_miss_ok {m m' : IndexedRowMap} {k : String}
    {tf : List (String × Shape)} {slots : List (Option DecValue)} {v : DecValue}
    (h : m.next_key_seed = (some k, m')) (hf : findFieldIdx k tf = none)
    (hv : m'.next_value_seed .ignoredAnyS = .ok v) :
    indexedStructVisit m tf slots = indexedStructVisit m' tf slots := by
  conv_lhs => rw [indexedStructVisit.eq_def]
  split
  · rename_i x heq
    rw [h] at heq
    simp at heq
  · rename_i k2 m2 heq
    rw [h] at heq
    have h1 : k = k2 := by have := congrArg Prod.fst heq; simpa using this
    have h2 : m' = m2 := by have := congrArg Prod.snd heq; simpa using this
    subst h1
    subst h2
    simp only [hf, hv]

theorem indexedStructVisit_key_miss_err {m m' : IndexedRowMap} {k : String}
    {tf : List (String × Shape)} {slots : List (Option DecValue)} {e : Error}
    (h : m.next_key_seed = (some k, m')) (hf : findFieldIdx k tf = none)
    (hv : m'.next_value_seed .ignoredAnyS = .error e) :
    indexedStructVisit m tf slots = .error e := by
  conv_lhs => rw [indexedStructVisit.eq_def]
  split
  · rename_i x heq
    rw [h] at heq
    simp at heq
  · rename_i k2 m2 heq
    rw [h] at heq
    have h1 : k = k2 := by have := congrArg Prod.fst heq; simpa using this
    have h2 : m' = m2 := by have := congrArg Prod.snd heq; simpa using this
    subst h1
    subst h2
    simp only [hf, hv]

/-! ## List bookkeeping lemmas -/

theorem my_get_set_ne {α : Type} (l : List α) (i j : Nat) (a : α) (h : j ≠ i) :
    (l.set i a).get? j = l.get? j := by
  induction l generalizing i j with
  | nil => simp
  | cons x xs ih =>
    cases i with
    | zero =>
      cases j with
      | zero => exact absurd rfl h
      | succ j2 => simp [List.set]
    | succ i2 =>
      cases j with
      | zero => simp [List.set]
      | succ j2 => simpa [List.set] using ih i2 j2 (fun hh => h (by rw [hh]))

theorem my_getD_set_ne (l : List (Option DecValue)) (i j : Nat) (a : Option DecValue)
    (h : j ≠ i) : (l.set i a).getD j none = l.getD j none := by
  show ((l.set i a).get? j).getD none = (l.get? j).getD none
  rw [my_get_set_ne l i j a h]

theorem my_take_set {α : Type} (l : List α) (i : Nat) (a : α) (h : i < l.length) :
    (l.set i a).take (i + 1) = l.take i ++ [a] := by
  induction l generalizing i with
  | nil => simp at h
  | cons x xs ih =>
    cases i with
    | zero => simp [List.set]
    | succ i2 =>
      simp only [List.set, List.take, List.cons_append, List.cons.injEq, true_and]
      exact ih i2 (by simpa using h)

theorem my_take_all {α : Type} (l : List α) (i : Nat) (h : l.length ≤ i) :
    l.take i = l := by
  induction l generalizing i with
  | nil => simp
  | cons x xs ih =>
    cases i with
    | zero => simp at h
    | succ i2 => simp [List.take, ih i2 (by simpa using h)]

theorem my_drop_all {α : Type} (l : List α) (i : Nat) (h : l.length ≤ i) :
    l.drop i = [] := by
  induction l generalizing i with
  | nil => simp
  | cons x xs ih =>
    cases i with
    | zero => simp at h
    | succ i2 => simpa [List.drop] using ih i2 (by simpa using h)

theorem my_drop_get {α : Type} (l : List α) (i : Nat) (a : α) (h : l.get? i = some a) :
    l.drop i = a :: l.drop (i + 1) := by
  induction l generalizing i with
  | nil => simp at h
  | cons x xs ih =>
    cases i with
    | zero =>
      simp at h
      simp [h]
    | succ i2 => simpa [List.drop] using ih i2 (by simpa using h)

theorem my_replicate_getD (n j : Nat) :
    (List.replicate n (none : Option DecValue)).getD j none = none := by
  induction n generalizing j with
  | zero => cases j <;> rfl
  | succ n2 ih =>
    cases j with
    | zero => rfl
    | succ j2 => exact ih j2

theorem my_get_map_fst (tf : List (String × Shape)) (i : Nat) :
    (tf.map Prod.fst).get? i = (tf.get? i).map Prod.fst := by
  induction tf generalizing i with
  | nil => simp
  | cons p rest ih =>
    cases i with
    | zero => simp
    | succ i2 => simpa using ih i2

theorem my_get_map_snd (tf : List (String × Shape)) (i : Nat) :
    (tf.map Prod.snd).get? i = (tf.get? i).map Prod.snd := by
  induction tf generalizing i with
  | nil => simp
  | cons p rest ih =>
    cases i with
    | zero => simp
    | succ i2 => simpa using ih i2

/-- With distinct field names, the derived field-identifier matcher sends
the i-th field's name back to index i. -/
theorem findFieldIdx_of_nodup (tf : List (String × Shape)) (i : Nat) (n : String)
    (s : Shape) (hnd : (tf.map Prod.fst).Nodup) (hg : tf.get? i = some (n, s)) :
    findFieldIdx n tf = some i := by
  induction tf generalizing i with
  | nil => simp at hg
  | cons p rest ih =>
    obtain ⟨pn, ps⟩ := p
    rw [List.map_cons, List.nodup_cons] at hnd
    cases i with
    | zero =>
      simp at hg
      simp [findFieldIdx, hg.1.symm]
    | succ i2 =>
      simp only [List.get?] at hg
      have hmem : n ∈ rest.map Prod.fst := by
        have : (n, s) ∈ rest := List.get?_mem hg
        exact List.mem_map_of_mem Prod.fst this
      have hne : n ≠ pn := by
        intro he
        exact hnd.1 (he ▸ hmem)
      simp [findFieldIdx, hne, ih i2 hnd.2 hg]

/-- When every slot is filled, the struct is assembled as the field names
zipped with the slot values. -/
theorem buildFields_all_some (tf : List (String × Shape)) (vs : List DecValue)
    (h : vs.length = tf.length) :
    buildFields tf (vs.map some) = .ok ((tf.map Prod.fst).zip vs) := by
  induction tf generalizing vs with
  | nil =>
    cases vs with
    | nil => rfl
    | cons v vr => simp at h
  | cons p rest ih =>
    cases vs with
    | nil => simp at h
    | cons v vr =>
      obtain ⟨pn, ps⟩ := p
      show (buildFields rest (vr.map some)).map ((pn, v) :: ·) = _
      rw [ih vr (by simpa using h)]
      rfl

theorem decodeCellsFrom_length (row : Row) (ts : List Shape) :
    ∀ (i : Nat) (vs : List DecValue),
      decodeCellsFrom row i ts = .ok vs → vs.length = ts.length := by
  induction ts with
  | nil =>
    intro i vs h
    simp only [decodeCellsFrom] at h
    simp at h
    simp [← h]
  | cons t rest ih =>
    intro i vs h
    unfold decodeCellsFrom at h
    rcases hg : row.get_ref i with e | c
    · simp [hg] at h
    · rcases hd : deserializeValue c t with e | v
      · simp [hg, hd] at h
      · rcases hr : decodeCellsFrom row (i + 1) rest with e | vr
        · simp [hg, hd, hr, Except.map] at h
        · simp [hg, hd, hr, Except.map] at h
          rw [← h]
          simp [ih (i + 1) vr hr]

/-- Characterization of the named struct traversal: with distinct field
names, the visit loop with cursor at i decodes cells i, i+1, ... into
field slots i, i+1, ..., positionally. -/
theorem namedStructVisit_char (row : Row) (tf : List (String × Shape)) :
    ∀ (k i : Nat) (slots : List (Option DecValue)),
      tf.length - i = k →
      (tf.map Prod.fst).Nodup →
      slots.length = tf.length →
      (∀ j, i ≤ j → slots.getD j none = none) →
      namedStructVisit ⟨row, tf.map Prod.fst, i⟩ tf slots =
        (match decodeCellsFrom row i ((tf.map Prod.snd).drop i) with
         | .ok vs => (buildFields tf (slots.take i ++ vs.map some)).map DecValue.structV
         | .error e => .error e) := by
  intro k
  induction k with
  | zero =>
    intro i slots hk hnd hlen hnone
    have hge : tf.length ≤ i := by omega
    have hkey : (⟨row, tf.map Prod.fst, i⟩ : NamedRowMap).next_key_seed =
        (none, ⟨row, tf.map Prod.fst, i⟩) := by
      have hn : tf[i]? = none := by
        rw [← List.get?_eq_getElem?]
        exact List.get?_eq_none.mpr (by simpa using hge)
      simp [NamedRowMap.next_key_seed, hn]
    rw [namedStructVisit_key_none hkey]
    rw [my_drop_all (tf.map Prod.snd) i (by simpa using hge)]
    rw [my_take_all slots i (by omega)]
    simp [decodeCellsFrom]
  | succ k2 ih =>
    intro i slots hk hnd hlen hnone
    have hlt : i < tf.length := by omega
    obtain ⟨p, hp⟩ : ∃ p, tf.get? i = some p := by
      rcases hg2 : tf.get? i with _ | p
      · rw [List.get?_eq_none] at hg2
        omega
      · exact ⟨p, rfl⟩
    obtain ⟨n, s⟩ := p
    have hname : (tf.map Prod.fst).get? i = some n := by
      rw [my_get_map_fst, hp]
      rfl
    have hshape : (tf.map Prod.snd).get? i = some s := by
      rw [my_get_map_snd, hp]
      rfl
    have hkey : (⟨row, tf.map Prod.fst, i⟩ : NamedRowMap).next_key_seed =
        (some n, ⟨row, tf.map Prod.fst, i + 1⟩) := by
      have hp2 : tf[i]? = some (n, s) := by
        rw [← List.get?_eq_getElem?]
        exact hp
      simp [NamedRowMap.next_key_seed, hp2]
    have hfind : findFieldIdx n tf = some i := findFieldIdx_of_nodup tf i n s hnd hp
    have hslot : slots.getD i none = none := hnone i (Nat.le_refl i)
    have hshapeAt : shapeAt tf i = s := by
      show ((tf.get? i).getD _).2 = s
      rw [hp]
      rfl
    have hdrop : (tf.map Prod.snd).drop i = s :: (tf.map Prod.snd).drop (i + 1) :=
      my_drop_get _ i s hshape
    rcases hg : row.get_ref i with e | c
    · have hv : (⟨row, tf.map Prod.fst, i + 1⟩ : NamedRowMap).next_value_seed
          (shapeAt tf i) = .error (.rusqlite e) := by
        show (match row.get_ref (i + 1 - 1) with
              | .ok value => deserializeValue value (shapeAt tf i)
              | .error e2 => Except.error (Error.rusqlite e2)) = _
        simp only [Nat.add_sub_cancel]
        rw [hg]
      rw [namedStructVisit_key_hit_err hkey hfind hslot hv, hdrop]
      simp [decodeCellsFrom, hg]
    · rcases hdv : deserializeValue c s with e | v
      · have hv : (⟨row, tf.map Prod.fst, i + 1⟩ : NamedRowMap).next_value_seed
            (shapeAt tf i) = .error e := by
          show (match row.get_ref (i + 1 - 1) with
                | .ok value => deserializeValue value (shapeAt tf i)
                | .error e2 => Except.error (Error.rusqlite e2)) = _
          simp only [Nat.add_sub_cancel]
          rw [hg]
          simp only [hshapeAt, hdv]
        rw [namedStructVisit_key_hit_err hkey hfind hslot hv, hdrop]
        simp [decodeCellsFrom, hg, hdv]
      · have hv : (⟨row, tf.map Prod.fst, i + 1⟩ : NamedRowMap).next_value_seed
            (shapeAt tf i) = .ok v := by
          show (match row.get_ref (i + 1 - 1) with
                | .ok value => deserializeValue value (shapeAt tf i)
                | .error e2 => Except.error (Error.rusqlite e2)) = _
          simp only [Nat.add_sub_cancel]
          rw [hg]
          simp only [hshapeAt, hdv]
        rw [namedStructVisit_key_hit_ok hkey hfind hslot hv]
        have hlen2 : i < slots.length := by omega
        rw [ih (i + 1) (slots.set i (some v)) (by omega) hnd
          (by simpa using hlen)
          (by
            intro j hj
            rw [my_getD_set_ne slots i j (some v) (by omega)]
            exact hnone j (by omega))]
        rw [hdrop]
        simp only [decodeCellsFrom, hg, hdv]
        simp only [my_take_set slots i (some v) hlen2]
        rcases hrec : decodeCellsFrom row (i + 1) ((tf.map Prod.snd).drop (i + 1))
          with e2 | vs2
        · simp [hrec, Except.map]
        · simp [hrec, Except.map, List.append_assoc]

/-- Named struct decoding, characterized: the value of field i is the
decode of the cell at row position i. -/
theorem deserializeNamed_struct_char (row : Row) (nm : String)
    (tf : List (String × Shape)) (hnd : (tf.map Prod.fst).Nodup) :
    deserializeNamed row (.structS nm tf) =
      (decodeCellsFrom row 0 (tf.map Prod.snd)).map
        (fun vs => DecValue.structV ((tf.map Prod.fst).zip vs)) := by
  show namedStructVisit (NamedRowMap.new row (tf.map Prod.fst)) tf
      (List.replicate tf.length none) = _
  rw [show NamedRowMap.new row (tf.map Prod.fst) =
      (⟨row, tf.map Prod.fst, 0⟩ : NamedRowMap) from rfl]
  rw [namedStructVisit_char row tf tf.length 0 (List.replicate tf.length none)
    (by omega) hnd (by simp) (fun j hj => my_replicate_getD _ j)]
  rw [List.drop_zero]
  rcases hrec : decodeCellsFrom row 0 (tf.map Prod.snd) with e | vs
  · rfl
  · have hlenv : vs.length = tf.length := by
      have := decodeCellsFrom_length row (tf.map Prod.snd) 0 vs hrec
      simpa using this
    simp [buildFields_all_some tf vs hlenv, Except.map]

/-- C1: for every row and struct target with field list f0..fn, named
decoding assigns the cell at row position i to field fi; the field names
are labels only, so renaming the fields without reordering the row yields
an observably identical decoded value (equal field values and identical
errors). -/
theorem claim_c1_positional_fields :
    ∀ (row : Row) (nm : String) (tf : List (String × Shape)),
      (tf.map Prod.fst).Nodup →
      (deserializeNamed row (.structS nm tf) =
        (decodeCellsFrom row 0 (tf.map Prod.snd)).map
          (fun vs => DecValue.structV ((tf.map Prod.fst).zip vs))) ∧
      (∀ (nm2 : String) (names2 : List String), names2.Nodup →
        names2.length = tf.length →
        (deserializeNamed row (.structS nm2 (names2.zip (tf.map Prod.snd)))).map
            structVals =
          (deserializeNamed row (.structS nm tf)).map structVals) := by
  intro row nm tf hnd
  refine ⟨deserializeNamed_struct_char row nm tf hnd, ?_⟩
  intro nm2 names2 hnd2 hlen2
  have hfst : (names2.zip (tf.map Prod.snd)).map Prod.fst = names2 :=
    List.map_fst_zip _ _ (by simp [hlen2])
  have hsnd : (names2.zip (tf.map Prod.snd)).map Prod.snd = tf.map Prod.snd :=
    List.map_snd_zip _ _ (by simp [hlen2])
  have h2 := deserializeNamed_struct_char row nm2 (names2.zip (tf.map Prod.snd))
    (by rw [hfst]; exact hnd2)
  rw [h2, hsnd, hfst, deserializeNamed_struct_char row nm tf hnd]
  rcases hrec : decodeCellsFrom row 0 (tf.map Prod.snd) with e | vs
  · rfl
  · have hlenv : vs.length = tf.length := by
      have := decodeCellsFrom_length row (tf.map Prod.snd) 0 vs hrec
      simpa using this
    show Except.ok (structVals (.structV (names2.zip vs))) =
      Except.ok (structVals (.structV ((tf.map Prod.fst).zip vs)))
    rw [show structVals (.structV (names2.zip vs)) = (names2.zip vs).map Prod.snd from rfl]
    rw [show structVals (.structV ((tf.map Prod.fst).zip vs)) =
        ((tf.map Prod.fst).zip vs).map Prod.snd from rfl]
    rw [List.map_snd_zip _ _ (by simp [hlenv, hlen2]),
        List.map_snd_zip _ _ (by simp [hlenv])]

/-- C1 witness samples. -/
def rowW1 : Row := ⟨[.ok (.integer 1), .ok (.text [104, 105])]⟩

/-- C1 witness target fields. -/
def tfW1 : List (String × Shape) := [("id", .i64S), ("name", .strS)]

theorem claim_c1_witness :
    (tfW1.map Prod.fst).Nodup ∧
      ((deserializeNamed rowW1 (.structS "S" tfW1) =
          (decodeCellsFrom rowW1 0 (tfW1.map Prod.snd)).map
            (fun vs => DecValue.structV ((tfW1.map Prod.fst).zip vs))) ∧
        (∀ (nm2 : String) (names2 : List String), names2.Nodup →
          names2.length = tfW1.length →
          (deserializeNamed rowW1 (.structS nm2 (names2.zip (tfW1.map Prod.snd)))).map
              structVals =
            (deserializeNamed rowW1 (.structS "S" tfW1)).map structVals)) :=
  ⟨by decide, claim_c1_positional_fields rowW1 "S" tfW1 (by decide)⟩

/-- The two struct traversals agree step for step: the map machinery of
the positional and the named driver is identical. -/
theorem structVisit_agree (r : Row) (f : List String) (tf : List (String × Shape)) :
    ∀ (k i : Nat) (slots : List (Option DecValue)), f.length - i ≤ k →
      indexedStructVisit ⟨r, f, i⟩ tf slots = namedStructVisit ⟨r, f, i⟩ tf slots := by
  intro k
  induction k with
  | zero =>
    intro i slots hk
    have hge : f.length ≤ i := by omega
    have hn2 : f[i]? = none := by
      rw [← List.get?_eq_getElem?]
      exact List.get?_eq_none.mpr hge
    have hkeyI : (⟨r, f, i⟩ : IndexedRowMap).next_key_seed = (none, ⟨r, f, i⟩) := by
      simp [IndexedRowMap.next_key_seed, hn2]
    have hkeyN : (⟨r, f, i⟩ : NamedRowMap).next_key_seed = (none, ⟨r, f, i⟩) := by
      simp [NamedRowMap.next_key_seed, hn2]
    rw [indexedStructVisit_key_none hkeyI, namedStructVisit_key_none hkeyN]
  | succ k2 ih =>
    intro i slots hk
    rcases hg : f.get? i with _ | key
    · have hn2 : f[i]? = none := by
        rw [← List.get?_eq_getElem?]
        exact hg
      have hkeyI : (⟨r, f, i⟩ : IndexedRowMap).next_key_seed = (none, ⟨r, f, i⟩) := by
        simp [IndexedRowMap.next_key_seed, hn2]
      have hkeyN : (⟨r, f, i⟩ : NamedRowMap).next_key_seed = (none, ⟨r, f, i⟩) := by
        simp [NamedRowMap.next_key_seed, hn2]
      rw [indexedStructVisit_key_none hkeyI, namedStructVisit_key_none hkeyN]
    · have hg2 : f[i]? = some key := by
        rw [← List.get?_eq_getElem?]
        exact hg
      have hkeyI : (⟨r, f, i⟩ : IndexedRowMap).next_key_seed =
          (some key, ⟨r, f, i + 1⟩) := by
        simp [IndexedRowMap.next_key_seed, hg2]
      have hkeyN : (⟨r, f, i⟩ : NamedRowMap).next_key_seed =
          (some key, ⟨r, f, i + 1⟩) := by
        simp [NamedRowMap.next_key_seed, hg2]
      have hvs : ∀ t, (⟨r, f, i + 1⟩ : IndexedRowMap).next_value_seed t =
          (⟨r, f, i + 1⟩ : NamedRowMap).next_value_seed t := fun t => rfl
      have hlt : i < f.length := get_some_lt hg
      rcases hf : findFieldIdx key tf with _ | j
      · rcases hv : (⟨r, f, i + 1⟩ : NamedRowMap).next_value_seed .ignoredAnyS with e | v
        · rw [indexedStructVisit_key_miss_err hkeyI hf ((hvs _).trans hv),
            namedStructVisit_key_miss_err hkeyN hf hv]
        · rw [indexedStructVisit_key_miss_ok hkeyI hf ((hvs _).trans hv),
            namedStructVisit_key_miss_ok hkeyN hf hv]
          exact ih (i + 1) slots (by omega)
      · rcases hs : slots.getD j none with _ | v0
        · rcases hv : (⟨r, f, i + 1⟩ : NamedRowMap).next_value_seed (shapeAt tf j)
            with e | v
          · rw [indexedStructVisit_key_hit_err hkeyI hf hs ((hvs _).trans hv),
              namedStructVisit_key_hit_err hkeyN hf hs hv]
          · rw [indexedStructVisit_key_hit_ok hkeyI hf hs ((hvs _).trans hv),
              namedStructVisit_key_hit_ok hkeyN hf hs hv]
            exact ih (i + 1) (slots.set j (some v)) (by omega)
        · rw [indexedStructVisit_key_dup hkeyI hf hs,
            namedStructVisit_key_dup hkeyN hf hs]

/-- C3: decoding a struct-with-named-fields target directly at top level
by position and by name produce equal results: the positional struct
branch and the named driver run the same field-list-as-position
machinery. -/
theorem claim_c3_index_name_agree :
    ∀ (row : Row) (nm : String) (tf : List (String × Shape)),
      from_row_via_index row (.structS nm tf) = from_row_via_name row (.structS nm tf) := by
  intro row nm tf
  unfold from_row_via_index from_row_via_name
  have h : deserializeIndexed row (.structS nm tf) = deserializeNamed row (.structS nm tf) := by
    show indexedStructVisit ⟨row, tf.map Prod.fst, 0⟩ tf (List.replicate tf.length none) =
      namedStructVisit ⟨row, tf.map Prod.fst, 0⟩ tf (List.replicate tf.length none)
    exact structVisit_agree row (tf.map Prod.fst) tf (tf.map Prod.fst).length 0
      (List.replicate tf.length none) (by omega)
  rw [h]

end VaultSerde
